import Mathlib

/-!
Shallow embedding of the mg-settings configuration parser
(src/lib.rs, src/key.rs, src/string.rs, src/position.rs, src/errors/mod.rs).

Strings are modelled as lists of Lean `Char` and positions as character
indices; the Rust code indexes by bytes, which coincides for the ASCII
inputs the claims are about.  Rust's Unicode character classes
(`char::is_alphabetic`, `char::is_alphanumeric`, `char::is_whitespace`)
are modelled by their ASCII restrictions.

Rust panics (`unwrap`, `unreachable!`) are modelled by the explicit
`RRes.crash` result; fallible functions return `Except` / `RRes`.
-/

namespace MgSettings

/-- Character-list model of Rust `&str` / `String`. -/
abbrev Text := List Char

/-- position.rs: `Pos { line, column }`, 1-based. -/
structure Pos where
  line : Nat
  column : Nat
deriving DecidableEq

/-- errors/mod.rs: `ErrorType`. -/
inductive ErrorType
| MissingArgument
| NoCommand
| Parse
| UnknownCommand
deriving DecidableEq

/-- errors/mod.rs: `ParseError { expected, pos, typ, unexpected }`. -/
structure ParseError where
  typ : ErrorType
  unexpected : Text
  expected : Text
  pos : Pos
deriving DecidableEq

/-- errors/settings.rs line: `SettingError` (unused by the parser paths). -/
inductive SettingError
| UnknownChoice : Text → List Text → SettingError
| UnknownSetting : Text → SettingError
| WrongType : Text → Text → SettingError
deriving DecidableEq

/-- errors/mod.rs: `Error` (`Msg` also stands for the io-error conversion). -/
inductive Error
| Msg : Text → Error
| Parse : ParseError → Error
| Setting : SettingError → Error
deriving DecidableEq

/-- Result of running a piece of Rust code that may return normally,
return an error, or panic (`unwrap` / `unreachable!`). -/
inductive RRes (α : Type)
| ok (a : α)
| err (e : Error)
| crash
deriving DecidableEq

def RRes.map (f : α → β) : RRes α → RRes β
  | .ok a => .ok (f a)
  | .err e => .err e
  | .crash => .crash

/-- Decimal rendering of a natural, for the `Display` impls. -/
def natText (n : Nat) : Text := (Nat.repr n).data

/-- Display impl of `Pos`: `line {l}, column {c}`. -/
def posDisplay (p : Pos) : Text :=
  "line ".data ++ natText p.line ++ ", column ".data ++ natText p.column

/-- Display impl of `ParseError`:
`unexpected {u}, expecting {e} on {pos}`. -/
def parseErrorDisplay (pe : ParseError) : Text :=
  "unexpected ".data ++ pe.unexpected ++ ", expecting ".data ++ pe.expected
    ++ " on ".data ++ posDisplay pe.pos

/-- Display impl of `SettingError`. -/
def settingErrorDisplay : SettingError → Text
  | .UnknownChoice actual expected =>
      "unknown choice ".data ++ actual ++ ", expecting one of: ".data
        ++ (List.intercalate ", ".data expected)
  | .UnknownSetting name => "no setting named ".data ++ name
  | .WrongType actual expected =>
      "wrong value type: expecting ".data ++ expected ++ ", but found ".data ++ actual

/-- Display impl of `Error`. -/
def errorDisplay : Error → Text
  | .Msg s => s
  | .Parse pe => parseErrorDisplay pe
  | .Setting se => settingErrorDisplay se

/-! ## string.rs -/

/-- ASCII restriction of Rust `char::is_alphabetic`. -/
def charIsAlphabetic (c : Char) : Bool := c.isAlpha

/-- ASCII restriction of Rust `char::is_alphanumeric`. -/
def charIsAlphanumeric (c : Char) : Bool := c.isAlphanum

/-- ASCII restriction of Rust `char::is_whitespace`. -/
def charIsWhitespace (c : Char) : Bool := c.isWhitespace

/-- Rust `str::trim` (both ends). -/
def trimText (s : Text) : Text :=
  ((s.dropWhile charIsWhitespace).reverse.dropWhile charIsWhitespace).reverse

/-- string.rs: `Word { index, word }` — a word plus its start offset in the line. -/
structure Word where
  index : Nat
  word : Text
deriving DecidableEq

/-- Worker for `words`: walks the line char by char carrying the current
in-progress word (start offset, reversed characters), exactly like the
`for (i, character) in input.chars().enumerate()` loop in string.rs. -/
def wordsAllGo : Text → Nat → Option (Nat × Text) → List Word
  | [], _, none => []
  | [], _, some (st, acc) => [⟨st, acc.reverse⟩]
  | c :: rest, i, none =>
      if charIsWhitespace c then wordsAllGo rest (i + 1) none
      else wordsAllGo rest (i + 1) (some (i, [c]))
  | c :: rest, i, some (st, acc) =>
      if charIsWhitespace c then ⟨st, acc.reverse⟩ :: wordsAllGo rest (i + 1) none
      else wordsAllGo rest (i + 1) (some (st, c :: acc))

/-- All whitespace-delimited words of a line with their start offsets. -/
def wordsAll (s : Text) : List Word := wordsAllGo s 0 none

/-- string.rs: `words(input, count)` — the first `count` words, or `None`
if there are fewer than `count`. -/
def wordsF (s : Text) (count : Nat) : Option (List Word) :=
  let v := (wordsAll s).take count
  if v.length = count then some v else none

/-- Modelled from the spec (§4.2): `maybe_word(line)` returning the first
whitespace-delimited token together with its start column offset.  The
`string.rs` in the snapshot is from an older commit whose `maybe_word`
returns a bare `&str`; lib.rs uses the `Word`-returning version, which is
the first result of `words`. -/
def maybeWord (s : Text) : Option Word := (wordsAll s).head?

/-- Modelled from the spec (§4.2): `word(line)` — same as `maybe_word` but
unwraps, panicking when the input has no word.  Callers match on `none`
and crash. -/
def wordF (s : Text) : Option Word := maybeWord s

/-- string.rs: `StrExt::rsplit_at` — split `index` characters from the end,
or `("", "")` when the string is not longer than `index`. -/
def rsplitAt (s : Text) (n : Nat) : Text × Text :=
  if n < s.length then (s.take (s.length - n), s.drop (s.length - n)) else ([], [])

/-- string.rs: `check_ident(string, pos)` — every character alphanumeric,
`-` or `_`, and the first character alphabetic; otherwise a Parse error
expecting "identifier" at `pos`. -/
def checkIdent (s : Text) (pos : Pos) : Except Error Text :=
  if (s.all fun c => charIsAlphanumeric c || c = '-' || c = '_') &&
     (match s.head? with
      | some c => charIsAlphabetic c
      | none => false) then
    .ok s
  else
    .error (.Parse ⟨.Parse, s, "identifier".data, pos⟩)

/-! ## key.rs -/

/-- key.rs: the `Key` enum. -/
inductive Key
| Alt : Key → Key
| Backspace
| Char : Char → Key
| Control : Key → Key
| Down
| Enter
| Escape
| F1 | F2 | F3 | F4 | F5 | F6 | F7 | F8 | F9 | F10 | F11 | F12
| Left
| Right
| Shift : Key → Key
| Space
| Tab
| Up
deriving DecidableEq

/-- key.rs: `ConstructorKeys` — which modifier prefixes were seen. -/
structure ConstructorKeys where
  alt : Bool
  control : Bool
  shift : Bool
deriving DecidableEq

/-- key.rs: `key_to_string` (no surrounding `<`/`>`). -/
def keyToString : Key → Text
  | .Alt k => 'A' :: '-' :: keyToString k
  | .Backspace => "Backspace".data
  | .Char c => [c]
  | .Control k => 'C' :: '-' :: keyToString k
  | .Down => "Down".data
  | .Enter => "Enter".data
  | .Escape => "Esc".data
  | .F1 => "F1".data
  | .F2 => "F2".data
  | .F3 => "F3".data
  | .F4 => "F4".data
  | .F5 => "F5".data
  | .F6 => "F6".data
  | .F7 => "F7".data
  | .F8 => "F8".data
  | .F9 => "F9".data
  | .F10 => "F10".data
  | .F11 => "F11".data
  | .F12 => "F12".data
  | .Left => "Left".data
  | .Right => "Right".data
  | .Shift k => 'S' :: '-' :: keyToString k
  | .Space => "Space".data
  | .Tab => "Tab".data
  | .Up => "Up".data

/-- key.rs: the `Display` impl of `Key` — `Char` keys are bare, every other
key is wrapped in `<`/`>`. -/
def keyDisplay (k : Key) : Text :=
  match k with
  | .Char _ => keyToString k
  | _ => '<' :: (keyToString k ++ ['>'])

/-- key.rs: `key_constructor` — wrap the base key in the recorded
modifiers.  This mirrors the source exactly, including the arm structure
in which `alt && shift` without `control` yields only `Shift`. -/
def keyConstructor (k : Key) (ck : ConstructorKeys) : Key :=
  if ck.control then
    if ck.shift then
      if ck.alt then .Control (.Alt (.Shift k))
      else .Control (.Shift k)
    else if ck.alt then .Control (.Alt k)
    else .Control k
  else if ck.shift then .Shift k
  else if ck.alt then .Alt k
  else k

/-- key.rs: `special_key(key, line_num, column_num, in_special_key)` — the
named-special-key table with each name's consumed length in the original
bracketed syntax. -/
def specialKey (key : Text) (lineNum colNum : Nat) (inSpecial : Bool) :
    Except Error (Key × Nat) :=
  let expected := if inSpecial then "A-Z or special key".data else "special key".data
  if key = "Backspace".data then .ok (.Backspace, 11)
  else if key = "Down".data then .ok (.Down, 6)
  else if key = "Enter".data then .ok (.Enter, 7)
  else if key = "Esc".data then .ok (.Escape, 5)
  else if key = "F1".data then .ok (.F1, 4)
  else if key = "F2".data then .ok (.F2, 4)
  else if key = "F3".data then .ok (.F3, 4)
  else if key = "F4".data then .ok (.F4, 4)
  else if key = "F5".data then .ok (.F5, 4)
  else if key = "F6".data then .ok (.F6, 4)
  else if key = "F7".data then .ok (.F7, 4)
  else if key = "F8".data then .ok (.F8, 4)
  else if key = "F9".data then .ok (.F9, 4)
  else if key = "F10".data then .ok (.F10, 5)
  else if key = "F11".data then .ok (.F11, 5)
  else if key = "F12".data then .ok (.F12, 5)
  else if key = "Left".data then .ok (.Left, 6)
  else if key = "Right".data then .ok (.Right, 7)
  else if key = "Space".data then .ok (.Space, 7)
  else if key = "Tab".data then .ok (.Tab, 5)
  else if key = "Up".data then .ok (.Up, 4)
  else .error (.Parse ⟨.Parse, key, expected, ⟨lineNum, colNum + 1⟩⟩)

/-- The `while end.len() >= 2 && prefix` loop of `parse_key`: strip the
two-character modifier markers `A-`, `C-`, `S-` in any order and any
repetition, recording flags and the number of characters consumed. -/
def stripMods : Text → ConstructorKeys → Nat → Text × ConstructorKeys × Nat
  | 'A' :: '-' :: rest, ck, delta => stripMods rest { ck with alt := true } (delta + 2)
  | 'C' :: '-' :: rest, ck, delta => stripMods rest { ck with control := true } (delta + 2)
  | 'S' :: '-' :: rest, ck, delta => stripMods rest { ck with shift := true } (delta + 2)
  | s, ck, delta => (s, ck, delta)

/-- Whether the bracket content starts with a modifier marker (the
`end.len() >= 2 && (&end[..2] == "A-" || ...)` test of `parse_key`). -/
def isModStart : Text → Bool
  | 'A' :: '-' :: _ => true
  | 'C' :: '-' :: _ => true
  | 'S' :: '-' :: _ => true
  | _ => false

/-- key.rs: the fixed punctuation allow-list of bare-character keys. -/
def punctChars : Text :=
  "=+-;!\"#%&()*,./<>?@[\\]^_\x7b|\x7d~çÇéÉàÀèÈ$".data

/-- key.rs: `parse_key(input, line_num, column_num)` — one key plus the
number of characters consumed.  `end.chars().next().unwrap()` on an empty
remainder (all-of-brackets modifier markers, e.g. `<C->`) is a panic,
modelled as `.crash`; so is the `unreachable!()` on empty input. -/
def parseKey (input : Text) (lineNum colNum : Nat) : RRes (Key × Nat) :=
  match input with
  | [] => .crash
  | c :: rest =>
    if c = '<' then
      let key := rest.takeWhile (· ≠ '>')
      if ¬ input.contains '>' then
        .err (.Parse ⟨.Parse, "(none)".data, ">".data, ⟨lineNum, colNum + input.length⟩⟩)
      else if isModStart key then
        match stripMods key ⟨false, false, false⟩ 0 with
        | (endK, ck, delta) =>
          match endK with
          | [] => .crash
          | ch :: _ =>
            match specialKey endK lineNum (colNum + delta) true with
            | .ok (k, size) => .ok (keyConstructor k ck, size + delta)
            | .error e =>
              if ch.isAlpha then
                if endK.length = 1 then .ok (keyConstructor (.Char ch) ck, 5)
                else .err (.Parse ⟨.Parse, endK, "one character".data, ⟨lineNum, colNum + 3⟩⟩)
              else .err e
      else
        match specialKey key lineNum colNum false with
        | .ok r => .ok r
        | .error e => .err e
    else
      if c.isAlpha || punctChars.contains c then .ok (.Char c, 1)
      else .err (.Parse ⟨.Parse, [c], "key".data, ⟨lineNum, colNum⟩⟩)

/-- The `while !input.is_empty()` loop of `parse_keys`, with fuel for the
consumed-length recursion (every key consumes at least one character, so
fuel `input.length` never runs out on the Rust-reachable paths). -/
def parseKeysGo : Nat → Text → Nat → Nat → Nat → RRes (List Key)
  | _, [], _, _, _ => .ok []
  | 0, _ :: _, _, _, _ => .crash
  | fuel + 1, c :: rest, lineNum, colBase, index =>
    match parseKey (c :: rest) lineNum (colBase + index) with
    | .ok (k, size) =>
        (parseKeysGo fuel ((c :: rest).drop size) lineNum colBase (index + size)).map (k :: ·)
    | .err e => .err e
    | .crash => .crash

/-- key.rs: `parse_keys(input, line_num, column_num)`. -/
def parseKeys (input : Text) (lineNum colNum : Nat) : RRes (List Key) :=
  parseKeysGo input.length input lineNum colNum 0

/-! ## lib.rs -/

/-- lib.rs: the `Value` enum.  `Float` carries the digits-and-dot source
text instead of an `f64` (the numeric float payload is not modelled; the
claims only concern which variant is produced). -/
inductive Value
| Bool : Bool → Value
| Float : Text → Value
| Int : Int → Value
| Str : Text → Value
deriving DecidableEq

/-- lib.rs: the `Command<T>` enum.
`Map action keys mode`, `Unmap keys mode`. -/
inductive Command (T : Type)
| App : Text → Command T
| Custom : T → Command T
| Map : Text → List Key → Text → Command T
| Set : Text → Value → Command T
| Unmap : List Key → Text → Command T
deriving DecidableEq

/-- lib.rs: `ParseResult<T>` — accumulated commands and errors. -/
structure ParseResult (T : Type) where
  commands : List (Command T)
  errors : List Error
deriving DecidableEq

/-- lib.rs: `ParseResult::merge` — append both vectors. -/
def ParseResult.merge {T : Type} (a b : ParseResult T) : ParseResult T :=
  ⟨a.commands ++ b.commands, a.errors ++ b.errors⟩

/-- The parser's environment: `Config` (application commands, mapping
modes), the configured include path, the caller-supplied `EnumFromStr`
contract, and the injected filesystem.  `fs` is modelled from the spec
(§1): file access is "open a file by path and get a readable byte
stream — treated as an injected capability"; the crate's `file` module is
not part of the source snapshot. -/
structure Env (T : Type) where
  appCommands : List Text
  mappingModes : List Text
  createFn : Text → Text → Option Nat → Except Text T
  hasArgumentFn : Text → Except Text Bool
  includePath : Text
  fs : Text → Option Text

/-- Modelled from the spec: `Path::join` of the include directory and the
path word (the `file` module and `std::path` are outside the snapshot);
the filesystem itself is the abstract `Env.fs` map. -/
def joinPath (dir file : Text) : Text :=
  if dir = [] then file else dir ++ '/' :: file

/-- Modelled from the spec: the error produced when `file::open` fails
for an included file (an opaque message error attached to the include
line). -/
def fileOpenErr (path : Text) : Error :=
  .Msg ("failed to open included file ".data ++ path)

/-- lib.rs: `Parser::missing_args(column)`. -/
def missingArgs (lineNum col : Nat) : Error :=
  .Parse ⟨.MissingArgument, "<end of line>".data, "command arguments".data, ⟨lineNum, col⟩⟩

/-- lib.rs: `Parser::get_rest(line, column)`. -/
def getRest (lineNum : Nat) (line : Text) (col : Nat) : Except Error Text :=
  if col < line.length then .ok (line.drop col) else .error (missingArgs lineNum col)

/-- lib.rs: `Parser::check_eol(line, index)` — error if a word remains
after `index`; `col` is the value of `self.column` at the call site. -/
def checkEol (lineNum col : Nat) (line : Text) (index : Nat) : Except Error Unit :=
  if index < line.length then
    match maybeWord (line.drop index) with
    | some w =>
        .error (.Parse ⟨.Parse, line.drop index, "<end of line>".data, ⟨lineNum, col + w.index⟩⟩)
    | none => .ok ()
  else .ok ()

/-- The `check_eol` outcome as the list of errors it contributes. -/
def checkEolErrs (lineNum col : Nat) (line : Text) (index : Nat) : List Error :=
  match checkEol lineNum col line index with
  | .ok _ => []
  | .error e => [e]

/-- Numeric value of an all-digits string. -/
def natOfDigits (s : Text) : Nat :=
  s.foldl (fun n c => n * 10 + (c.toNat - 48)) 0

/-- `i64::MAX`; an unsigned digit string parses as `i64` exactly when its
value is at most this. -/
def i64Max : Nat := 9223372036854775807

/-- lib.rs: `Parser::value(input)`.  `col` is `self.column` at the call
site.  The two `unwrap`s are modelled precisely: `parse::<i64>()` on an
all-digits string fails (panics) exactly when the value exceeds
`i64::MAX`, and `parse::<f64>()` on a digits-and-dots string succeeds
exactly when it has exactly one dot and at least one digit, so any other
digits-and-dots string (e.g. `1.2.3` or `.`) panics.  On the string
fallback the code returns `input.trim()` — the full trimmed input,
including any `#`-suffix. -/
def value (lineNum col : Nat) (input : Text) : RRes Value :=
  let s := trimText (input.takeWhile (· ≠ '#'))
  if s = [] then
    .err (.Parse ⟨.Parse, "<end of line>".data, "value".data, ⟨lineNum, col + s.length⟩⟩)
  else if s = "true".data then .ok (.Bool true)
  else if s = "false".data then .ok (.Bool false)
  else if s.all (·.isDigit) then
    if natOfDigits s ≤ i64Max then .ok (.Int (natOfDigits s)) else .crash
  else if s.all (fun c => c.isDigit || c = '.') then
    if s.count '.' = 1 && 2 ≤ s.length then .ok (.Float s) else .crash
  else .ok (.Str (trimText input))

/-- lib.rs: `Parser::set_command(line)`; `col` is `self.column` on entry
(set by `Parser::line` to `start_index + 1`). -/
def setCommand {T : Type} (lineNum col : Nat) (rest : Text) : RRes (Command T) :=
  match wordsF rest 2 with
  | some (w0 :: w1 :: _) =>
    (match checkIdent w0.word ⟨lineNum, col + w0.index⟩ with
     | .error e => .err e
     | .ok ident =>
       if w1.word = "=".data then
         match value lineNum (col + w1.index + 1) (rest.drop (w1.index + 1)) with
         | .ok v => .ok (.Set ident v)
         | .err e => .err e
         | .crash => .crash
       else .err (.Parse ⟨.Parse, w1.word, "=".data, ⟨lineNum, col + w1.index⟩⟩))
  | _ => .err (.Parse ⟨.Parse, "<end of line>".data, "=".data, ⟨lineNum, col + rest.length⟩⟩)

/-- lib.rs: `Parser::map_command(line, mode)`; `word(line)` on an
all-whitespace remainder panics (`unwrap` in string.rs). -/
def mapCommand {T : Type} (lineNum col : Nat) (rest : Text) (mode : Text) : RRes (Command T) :=
  match wordF rest with
  | none => .crash
  | some w =>
    let rest2 := trimText (rest.drop (w.index + w.word.length))
    if rest2 ≠ [] then
      match parseKeys w.word lineNum (col + w.index) with
      | .ok keys => .ok (.Map rest2 keys mode)
      | .err e => .err e
      | .crash => .crash
    else
      .err (.Parse ⟨.Parse, "<end of line>".data, "mapping action".data, ⟨lineNum, col + rest.length⟩⟩)

/-- lib.rs: `Parser::unmap_command(line, mode)`. -/
def unmapCommand {T : Type} (lineNum col : Nat) (rest : Text) (mode : Text) : RRes (Command T) :=
  match wordF rest with
  | none => .crash
  | some w =>
    let afterIdx := w.index + w.word.length + 1
    let col' := col + afterIdx
    match checkEol lineNum col' rest afterIdx with
    | .error e => .err e
    | .ok _ =>
      match parseKeys w.word lineNum (col' + w.index) with
      | .ok keys => .ok (.Unmap keys mode)
      | .err e => .err e
      | .crash => .crash

/-- lib.rs: `Parser::custom_command(line, word, start_index, index, prefix)`. -/
def customCommand {T : Type} (env : Env T) (lineNum : Nat) (line : Text) (w : Text)
    (startIndex wordIndex : Nat) (pre : Option Nat) : RRes (Command T) :=
  let argsRes : Except Error Text :=
    if startIndex < line.length then .ok (trimText (line.drop startIndex))
    else
      match env.hasArgumentFn w with
      | .ok true => .error (missingArgs lineNum startIndex)
      | _ => .ok []
  match argsRes with
  | .error e => .err e
  | .ok args =>
    match env.createFn w args pre with
    | .ok cmd => .ok (.Custom cmd)
    | .error _ =>
      if env.appCommands.contains w then .ok (.App w)
      else .err (.Parse ⟨.UnknownCommand, w, "command or comment".data, ⟨lineNum, wordIndex + 1⟩⟩)

/-- Splitter for `BufRead::lines`: cut at each `'\n'`. -/
def splitLinesGo : Text → Text → List Text
  | [], acc => [acc.reverse]
  | c :: rest, acc =>
      if c = '\n' then acc.reverse :: splitLinesGo rest []
      else splitLinesGo rest (c :: acc)

/-- Strip one trailing `'\r'` (part of `BufRead::lines`). -/
def stripCR (l : Text) : Text :=
  if l.getLast? = some '\r' then l.dropLast else l

/-- `BufRead::lines` semantics: split on `'\n'`, drop a final empty
segment (so `""` yields no lines and a trailing newline adds none), and
strip one trailing `'\r'` from each line. -/
def rustLines (input : Text) : List Text :=
  let parts := splitLinesGo input []
  let parts := if parts.getLast? = some [] then parts.dropLast else parts
  parts.map stripCR

/-- lib.rs: `Parser::include_command(line)`; `sub` is the recursive
sub-parse of the opened file's lines (`self.parse(buf_reader, None)`),
whose result is `merge`d into the include line's own result after the
`check_eol` error, if any, has been pushed. -/
def includeCommand {T : Type} (env : Env T) (sub : List Text → RRes (ParseResult T))
    (lineNum col : Nat) (rest : Text) : RRes (ParseResult T) :=
  match wordF rest with
  | none => .crash
  | some w =>
    let afterIdx := w.index + w.word.length + 1
    let eolErrs := checkEolErrs lineNum (col + afterIdx) rest afterIdx
    let path := joinPath env.includePath w.word
    match env.fs path with
    | none => .ok ⟨[], eolErrs ++ [fileOpenErr path]⟩
    | some content =>
      match sub (rustLines content) with
      | .ok subRes => .ok ⟨subRes.commands, eolErrs ++ subRes.errors⟩
      | .err e => .err e
      | .crash => .crash

/-- lib.rs: `Parser::line(line, prefix)` — dispatch one line; `sub` is the
sub-parse used by `include`. -/
def lineFn {T : Type} (env : Env T) (sub : List Text → RRes (ParseResult T))
    (lineNum : Nat) (line : Text) (pre : Option Nat) : RRes (ParseResult T) :=
  match maybeWord line with
  | none => .ok ⟨[], []⟩
  | some wd =>
    let idx := wd.index
    let w := wd.word
    let startIndex := idx + w.length + 1
    let col := startIndex + 1
    let s3 := rsplitAt w 3
    let s5 := rsplitAt w 5
    if w.head? = some '#' then .ok ⟨[], []⟩
    else if w = "include".data then
      match getRest lineNum line startIndex with
      | .error e => .ok ⟨[], [e]⟩
      | .ok rest => includeCommand env sub lineNum col rest
    else
      let command : RRes (Command T) :=
        if w = "set".data then
          match getRest lineNum line startIndex with
          | .error e => .err e
          | .ok rest => setCommand lineNum col rest
        else if s3.2 = "map".data && env.mappingModes.contains s3.1 then
          match getRest lineNum line startIndex with
          | .error e => .err e
          | .ok rest => mapCommand lineNum col rest s3.1
        else if s5.2 = "unmap".data && env.mappingModes.contains s5.1 then
          match getRest lineNum line startIndex with
          | .error e => .err e
          | .ok rest => unmapCommand lineNum col rest s5.1
        else customCommand env lineNum line w startIndex idx pre
      match command with
      | .ok c => .ok ⟨[c], []⟩
      | .err e => .ok ⟨[], [e]⟩
      | .crash => .crash

/-- The `for (line_num, input_line) in input.lines().enumerate()` loop of
`Parser::parse`: fold the per-line results into the accumulator with
`merge`. -/
def linesGo {T : Type} (F : Nat → Text → RRes (ParseResult T)) :
    Nat → List Text → ParseResult T → RRes (ParseResult T)
  | _, [], acc => .ok acc
  | n, l :: ls, acc =>
    match F n l with
    | .ok r => linesGo F (n + 1) ls (acc.merge r)
    | .err e => .err e
    | .crash => .crash

/-- lib.rs: `Parser::parse` on an already-split list of lines, with fuel
bounding the `include` nesting depth (Rust's include recursion is
unbounded; exhausted fuel is modelled as a crash, matching the eventual
stack overflow of a cyclic include). -/
def parseAtFuel {T : Type} (env : Env T) : Nat → List Text → Option Nat → RRes (ParseResult T)
  | 0, _, _ => .crash
  | fuel + 1, lines, pre =>
    linesGo (fun n l => lineFn env (fun ls => parseAtFuel env fuel ls none) n l pre)
      1 lines ⟨[], []⟩

/-- lib.rs: `Parser::parse` on raw input text. -/
def parseInput {T : Type} (env : Env T) (fuel : Nat) (input : Text) (pre : Option Nat) :
    RRes (ParseResult T) :=
  parseAtFuel env fuel (rustLines input) pre

/-- lib.rs: `Parser::parse_line` — parse, then turn an entirely empty
result into a `NoCommand` error at column 1 of the last processed line
(`self.line`, which stays at its initial value 1 when there are no
lines). -/
def parseLine {T : Type} (env : Env T) (fuel : Nat) (input : Text) (pre : Option Nat) :
    RRes (ParseResult T) :=
  match parseInput env fuel input pre with
  | .ok r =>
    if r.commands.isEmpty && r.errors.isEmpty then
      .ok ⟨[], [.Parse ⟨.NoCommand, "comment or <end of line>".data, "command".data,
                 ⟨Nat.max 1 (rustLines input).length, 1⟩⟩]⟩
    else .ok r
  | x => x

/-- A minimal test-like environment over `Unit`: mapping modes `n`, `i`,
`c`, no application commands, a custom-command contract that recognises
nothing, and an empty filesystem. -/
def env0 : Env Unit :=
  { appCommands := []
    mappingModes := ["n".data, "i".data, "c".data]
    createFn := fun _ _ _ => .error "unknown command".data
    hasArgumentFn := fun _ => .error "unknown command".data
    includePath := "tests".data
    fs := fun _ => none }

/-- `env0` with a one-file filesystem: `tests/a.conf` containing
`set a = 1`. -/
def envFS : Env Unit :=
  { env0 with fs := fun p => if p = "tests/a.conf".data then some "set a = 1".data else none }

/-- The dispatcher's skip condition: the line has no word, or its first
word starts with `#` (a comment). -/
def commentOrBlank (line : Text) : Bool :=
  match maybeWord line with
  | none => true
  | some wd => wd.word.head? == some '#'

/-- The spec's identifier condition, stated as written there: the first
character is alphabetic and every remaining character is alphanumeric,
`-` or `_`. -/
def identOkSpec : Text → Bool
  | [] => false
  | c :: rest =>
      charIsAlphabetic c && rest.all fun d => charIsAlphanumeric d || d = '-' || d = '_'

/-- The named special keys actually present in `special_key` (key.rs),
paired with the `Key` variant each name parses to. -/
def specialKeyTable : List (Text × Key) :=
  [("Backspace".data, .Backspace), ("Down".data, .Down), ("Enter".data, .Enter),
   ("Esc".data, .Escape), ("F1".data, .F1), ("F2".data, .F2), ("F3".data, .F3),
   ("F4".data, .F4), ("F5".data, .F5), ("F6".data, .F6), ("F7".data, .F7),
   ("F8".data, .F8), ("F9".data, .F9), ("F10".data, .F10), ("F11".data, .F11),
   ("F12".data, .F12), ("Left".data, .Left), ("Right".data, .Right),
   ("Space".data, .Space), ("Tab".data, .Tab), ("Up".data, .Up)]

/-- Key names listed in the spec's table but absent from `special_key`
and from the `Key` enum. -/
def missingKeyNames : List Text :=
  ["Delete".data, "End".data, "Home".data, "Insert".data, "PageDown".data, "PageUp".data]

/-! ## Helper lemmas -/

theorem merge_assoc {T : Type} (a b c : ParseResult T) :
    (a.merge b).merge c = a.merge (b.merge c) := by
  simp [ParseResult.merge]

theorem merge_nil {T : Type} (a : ParseResult T) : a.merge ⟨[], []⟩ = a := by
  simp [ParseResult.merge]

/-- Folding the per-line results into a non-empty accumulator is the same
as folding into the empty accumulator and merging afterwards. -/
theorem linesGo_acc {T : Type} (F : Nat → Text → RRes (ParseResult T)) :
    ∀ (ls : List Text) (n : Nat) (a b : ParseResult T),
      linesGo F n ls (a.merge b) = (linesGo F n ls b).map (a.merge ·) := by
  intro ls
  induction ls with
  | nil => intro n a b; simp [linesGo, RRes.map]
  | cons l ls ih =>
    intro n a b
    cases h : F n l with
    | ok r => simp only [linesGo, h]; rw [merge_assoc]; exact ih (n + 1) a (b.merge r)
    | err e => simp [linesGo, h, RRes.map]
    | crash => simp [linesGo, h, RRes.map]

theorem getLast?_mem_of_eq {α : Type} {l : List α} {a : α}
    (h : l.getLast? = some a) : a ∈ l := by
  induction l with
  | nil => simp [List.getLast?] at h
  | cons c rest ih =>
    cases rest with
    | nil => simp only [List.getLast?_singleton, Option.some.injEq] at h; simp [h]
    | cons d rest' =>
      rw [List.getLast?_cons_cons] at h
      exact List.mem_cons_of_mem _ (ih h)

theorem stripCR_of_no_cr {l : Text} (h : '\r' ∉ l) : stripCR l = l := by
  unfold stripCR
  cases hgl : l.getLast? with
  | none => rfl
  | some a =>
    by_cases ha : a = '\r'
    · exact absurd (ha ▸ getLast?_mem_of_eq hgl) h
    · simp [hgl, ha]

theorem splitLinesGo_no_newline :
    ∀ (l acc : Text), '\n' ∉ l → splitLinesGo l acc = [acc.reverse ++ l] := by
  intro l
  induction l with
  | nil => intro acc _; simp [splitLinesGo]
  | cons c rest ih =>
    intro acc h
    rw [List.mem_cons, not_or] at h
    have hc : ¬ c = '\n' := fun e => h.1 e.symm
    simp only [splitLinesGo, if_neg hc]
    rw [ih (c :: acc) h.2]
    simp

/-- A newline-free, carriage-return-free input is a single line (or no
line at all when empty) under `BufRead::lines`. -/
theorem rustLines_single {l : Text} (hn : '\n' ∉ l) (hr : '\r' ∉ l) :
    rustLines l = if l = [] then [] else [l] := by
  cases l with
  | nil => rfl
  | cons c rest =>
    unfold rustLines
    rw [splitLinesGo_no_newline _ [] hn]
    simp [stripCR_of_no_cr hr]

/-- The Boolean guard of `check_ident` agrees with the spec's identifier
condition. -/
theorem checkIdent_cond (s : Text) :
    ((s.all fun c => charIsAlphanumeric c || c = '-' || c = '_') &&
      (match s.head? with
       | some c => charIsAlphabetic c
       | none => false)) = identOkSpec s := by
  cases s with
  | nil => rfl
  | cons c rest =>
    simp only [identOkSpec, List.all_cons, List.head?]
    cases hA : charIsAlphabetic c with
    | false => simp [hA]
    | true =>
      have hAl : charIsAlphanumeric c = true := by
        simp only [charIsAlphabetic] at hA
        simp [charIsAlphanumeric, Char.isAlphanum, hA]
      simp [hA, hAl, Bool.and_comm]

theorem checkIdent_eq (s : Text) (pos : Pos) :
    checkIdent s pos =
      if identOkSpec s then .ok s
      else .error (.Parse ⟨.Parse, s, "identifier".data, pos⟩) := by
  unfold checkIdent
  rw [checkIdent_cond]

/-! ## Claim theorems -/

/-- C1: the classification order of `Parser::value` (true/false, then
all-digits integer, then digits-and-dot float, then string) holds on its
claimed representatives, but the claim's residual case is wrong on two
counts: a digits-and-dots string with more than one dot such as
`"12.3.4"` does not become `Str` — it reaches the float branch and the
`parse::<f64>().unwrap()` panics (modelled as `.crash`), contradicting
the code's own NOTE comment — and the `Str` fallback returns the trimmed
original input including any `#`-comment (`"a # b"`), not the
comment-stripped text. -/
theorem value_classification :
    value 1 15 "123".data = .ok (.Int 123) ∧
    value 1 15 "123.4".data = .ok (.Float "123.4".data) ∧
    value 1 15 "true".data = .ok (.Bool true) ∧
    value 1 15 "false".data = .ok (.Bool false) ∧
    value 1 15 "hello world".data = .ok (.Str "hello world".data) ∧
    value 1 15 "a # b".data = .ok (.Str "a # b".data) ∧
    value 1 15 "12.3.4".data = .crash := by
  decide

/-- C2: parsing is not panic-free.  `parse_key` on the bracketed token
`<C->` (only modifier prefixes) panics at
`end.chars().next().unwrap()`, and `Parser::value` on the non-empty
trimmed text `1.2.3` panics at `parse::<f64>().unwrap()`; both panics
surface through `Parser::parse_line` on full command lines. -/
theorem parsing_panics :
    parseKey "<C->".data 1 6 = .crash ∧
    value 1 15 "1.2.3".data = .crash ∧
    parseLine env0 1 "nmap <C-> :open".data none = .crash ∧
    parseLine env0 1 "set o = 1.2.3".data none = .crash := by
  decide

/-- C3: the Display/parse round-trip fails for a named special key
wrapped in the modifier subset Alt+Shift (without Control):
`Alt(Shift(Tab))` renders as `<A-S-Tab>`, which re-parses to
`Shift(Tab)` because `key_constructor` drops Alt when Control is absent
and Shift is present.  The round-trip does hold with Control present
(e.g. `Control(Alt(Shift(Tab)))`). -/
theorem key_roundtrip_drops_alt :
    keyDisplay (Key.Alt (Key.Shift Key.Tab)) = "<A-S-Tab>".data ∧
    parseKeys (keyDisplay (Key.Alt (Key.Shift Key.Tab))) 1 1 = .ok [Key.Shift Key.Tab] ∧
    Key.Shift Key.Tab ≠ Key.Alt (Key.Shift Key.Tab) ∧
    parseKeys (keyDisplay (Key.Control (Key.Alt (Key.Shift Key.Tab)))) 1 1 =
      .ok [Key.Control (Key.Alt (Key.Shift Key.Tab))] := by
  decide

/-- C4: modifier-order normalization holds for the claim's own example
(`<S-C-Tab>` and `<C-S-Tab>` both parse to `Control(Shift(Tab))`), but
the general Control⊃Alt⊃Shift nesting fails when Alt and Shift appear
without Control: `<A-S-Tab>` and `<S-A-Tab>` both lose the Alt wrapper
and parse to `Shift(Tab)` instead of `Alt(Shift(Tab))`. -/
theorem modifier_normalization_drops_alt :
    parseKeys "<C-S-Tab>".data 1 1 = .ok [Key.Control (Key.Shift Key.Tab)] ∧
    parseKeys "<S-C-Tab>".data 1 1 = .ok [Key.Control (Key.Shift Key.Tab)] ∧
    parseKeys "<A-S-Tab>".data 1 1 = .ok [Key.Shift Key.Tab] ∧
    parseKeys "<S-A-Tab>".data 1 1 = .ok [Key.Shift Key.Tab] := by
  decide

/-- C5 (counterexample): `<Delete>` is not a recognized special key —
`special_key` has no `Delete` entry (and the `Key` enum has no such
variant), so parsing it yields a Parse error expecting "special key". -/
theorem delete_key_not_recognized :
    parseKeys "<Delete>".data 1 1 =
      .err (.Parse ⟨.Parse, "Delete".data, "special key".data, ⟨1, 2⟩⟩) := by
  decide

/-- C5 (amended): the special-key table contains exactly Backspace, Down,
Enter, Esc, F1–F12, Left, Right, Space, Tab and Up, and for each of these
`<Name>` parses to the corresponding `Key` variant; Delete, End, Home,
Insert, PageDown and PageUp are not recognized and yield a Parse error
expecting "special key". -/
theorem special_key_table_complete :
    (∀ p ∈ specialKeyTable, parseKeys ('<' :: (p.1 ++ ['>'])) 1 1 = .ok [p.2]) ∧
    (∀ nm ∈ missingKeyNames,
      parseKeys ('<' :: (nm ++ ['>'])) 1 1 =
        .err (.Parse ⟨.Parse, nm, "special key".data, ⟨1, 2⟩⟩)) := by
  constructor
  · decide
  · decide

/-- C5 (witness): the amended table theorem applied at `Tab` (present)
and `Home` (absent). -/
theorem special_key_table_complete_witness :
    parseKeys ('<' :: ("Tab".data ++ ['>'])) 1 1 = .ok [Key.Tab] ∧
    parseKeys ('<' :: ("Home".data ++ ['>'])) 1 1 =
      .err (.Parse ⟨.Parse, "Home".data, "special key".data, ⟨1, 2⟩⟩) :=
  ⟨special_key_table_complete.1 ("Tab".data, Key.Tab) (by decide),
   special_key_table_complete.2 "Home".data (by decide)⟩

/-- C6: `parse_key` returns the full surface length for the claim's
example `<C-O>o`, but for a bracketed literal character with more than
one modifier prefix the consumed length is the hardcoded 5, not the
token's length: `<C-S-O>` (length 7) consumes 5, so `parse_keys`
re-parses the tail `O>` and yields three keys instead of one. -/
theorem consumed_length_hardcoded :
    parseKeys "<C-O>o".data 1 1 = .ok [Key.Control (Key.Char 'O'), Key.Char 'o'] ∧
    parseKey "<C-S-O>".data 1 1 = .ok (Key.Control (Key.Shift (Key.Char 'O')), 5) ∧
    "<C-S-O>".data.length = 7 ∧
    parseKeys "<C-S-O>".data 1 1 =
      .ok [Key.Control (Key.Shift (Key.Char 'O')), Key.Char 'O', Key.Char '>'] := by
  decide

/-- C7: `Parser::parse` concatenates per-line results in line order — a
line whose result is `r` followed by lines whose combined result is `rs`
yields `r`'s commands and errors followed by `rs`'s, appended after any
accumulated prefix, so a failing line (zero commands, its errors)
discards nothing — and `include_command` merges the included file's full
`ParseResult` at the include line's position: its commands become the
line's commands and its errors follow the line's own `check_eol`
errors. -/
theorem parse_concatenates_line_results :
    (∀ (T : Type) (F : Nat → Text → RRes (ParseResult T)) (n : Nat) (l : Text)
       (ls : List Text) (acc r rs : ParseResult T),
       F n l = .ok r →
       linesGo F (n + 1) ls ⟨[], []⟩ = .ok rs →
       linesGo F n (l :: ls) acc =
         .ok ⟨acc.commands ++ (r.commands ++ rs.commands),
              acc.errors ++ (r.errors ++ rs.errors)⟩) ∧
    (∀ (T : Type) (env : Env T) (sub : List Text → RRes (ParseResult T))
       (lineNum col : Nat) (rest : Text) (w : Word) (content : Text)
       (subr : ParseResult T),
       wordF rest = some w →
       env.fs (joinPath env.includePath w.word) = some content →
       sub (rustLines content) = .ok subr →
       includeCommand env sub lineNum col rest =
         .ok ⟨subr.commands,
              checkEolErrs lineNum (col + (w.index + w.word.length + 1)) rest
                (w.index + w.word.length + 1) ++ subr.errors⟩) := by
  constructor
  · intro T F n l ls acc r rs h1 h2
    simp only [linesGo, h1]
    have e1 : acc.merge r = acc.merge (r.merge ⟨[], []⟩) := by rw [merge_nil]
    rw [e1, linesGo_acc, linesGo_acc, h2]
    rfl
  · intro T env sub lineNum col rest w content subr h1 h2 h3
    simp only [includeCommand, h1, h2, h3]

/-- C7 (witness): the concatenation law applied to the failing line
`set 5 5` followed by the succeeding line `set opt = 42`, and the include
merge law applied to `include a.conf` in the `envFS` filesystem. -/
theorem parse_concatenates_line_results_witness :
    linesGo (fun n l => lineFn env0 (fun _ => .crash) n l none) 1
        ["set 5 5".data, "set opt = 42".data] ⟨[], []⟩ =
      .ok ⟨[.Set "opt".data (.Int 42)],
           [.Parse ⟨.Parse, "5".data, "identifier".data, ⟨1, 5⟩⟩]⟩ ∧
    includeCommand envFS (fun _ => .ok ⟨[.Set "a".data (.Int 1)], []⟩) 1 9 "a.conf".data =
      .ok ⟨[.Set "a".data (.Int 1)], []⟩ :=
  ⟨parse_concatenates_line_results.1 Unit
     (fun n l => lineFn env0 (fun _ => .crash) n l none) 1
     "set 5 5".data ["set opt = 42".data] ⟨[], []⟩
     ⟨[], [.Parse ⟨.Parse, "5".data, "identifier".data, ⟨1, 5⟩⟩]⟩
     ⟨[.Set "opt".data (.Int 42)], []⟩ (by decide) (by decide),
   parse_concatenates_line_results.2 Unit envFS
     (fun _ => .ok ⟨[.Set "a".data (.Int 1)], []⟩) 1 9 "a.conf".data
     ⟨0, "a.conf".data⟩ "set a = 1".data ⟨[.Set "a".data (.Int 1)], []⟩
     (by decide) (by decide) (by decide)⟩

/-- C8: a blank, whitespace-only or `#`-comment line produces no command
and no error under `Parser::line` and `Parser::parse`, while
`Parser::parse_line` on the same (newline-free) input produces exactly
one `NoCommand` error with unexpected text `comment or <end of line>`
and expected text `command`. -/
theorem blank_or_comment_line :
    ∀ (T : Type) (env : Env T) (sub : List Text → RRes (ParseResult T)) (f n : Nat)
      (line : Text) (pre : Option Nat),
      commentOrBlank line = true →
      '\n' ∉ line → '\r' ∉ line →
      lineFn env sub n line pre = .ok ⟨[], []⟩ ∧
      parseInput env (f + 1) line pre = .ok ⟨[], []⟩ ∧
      parseLine env (f + 1) line pre =
        .ok ⟨[], [.Parse ⟨.NoCommand, "comment or <end of line>".data, "command".data,
                   ⟨1, 1⟩⟩]⟩ := by
  intro T env sub f n line pre hw hn hr
  have hline : ∀ (sub' : List Text → RRes (ParseResult T)) (n' : Nat),
      lineFn env sub' n' line pre = .ok ⟨[], []⟩ := by
    intro sub' n'
    cases hm : maybeWord line with
    | none => simp only [lineFn, hm]
    | some wd =>
      simp only [commentOrBlank, hm] at hw
      have heq : wd.word.head? = some '#' := eq_of_beq hw
      simp only [lineFn, hm, heq, if_pos]
  have hparse : parseInput env (f + 1) line pre = .ok ⟨[], []⟩ := by
    unfold parseInput parseAtFuel
    rw [rustLines_single hn hr]
    by_cases he : line = []
    · rw [if_pos he]; rfl
    · rw [if_neg he]
      simp only [linesGo, hline]
      rfl
  refine ⟨hline sub n, hparse, ?_⟩
  unfold parseLine
  rw [hparse]
  rw [rustLines_single hn hr]
  by_cases he : line = []
  · rw [if_pos he]; rfl
  · rw [if_neg he]; rfl

/-- C8 (witness): the blank/comment law applied to the comment line
`# Comment.`. -/
theorem blank_or_comment_line_witness :
    lineFn env0 (fun _ => .crash) 3 "# Comment.".data none = .ok ⟨[], []⟩ ∧
    parseInput env0 1 "# Comment.".data none = .ok ⟨[], []⟩ ∧
    parseLine env0 1 "# Comment.".data none =
      .ok ⟨[], [.Parse ⟨.NoCommand, "comment or <end of line>".data, "command".data,
                 ⟨1, 1⟩⟩]⟩ :=
  blank_or_comment_line Unit env0 (fun _ => .crash) 0 3 "# Comment.".data none
    (by decide) (by decide) (by decide)

/-- C9: `check_ident` accepts a word exactly when its first character is
alphabetic and every remaining character is alphanumeric, `-` or `_`,
and otherwise yields a Parse error expecting "identifier" at the word's
own position, which `set_command` propagates; in particular `set 5 5`
parses to zero commands and one error displaying as
`unexpected 5, expecting identifier on line 1, column 5`. -/
theorem set_identifier_validation :
    (∀ (s : Text) (pos : Pos),
       checkIdent s pos =
         if identOkSpec s then .ok s
         else .error (.Parse ⟨.Parse, s, "identifier".data, pos⟩)) ∧
    (∀ (T : Type) (lineNum col : Nat) (rest : Text) (w0 w1 : Word),
       wordsF rest 2 = some [w0, w1] →
       identOkSpec w0.word = false →
       setCommand (T := T) lineNum col rest =
         .err (.Parse ⟨.Parse, w0.word, "identifier".data, ⟨lineNum, col + w0.index⟩⟩)) ∧
    parseInput env0 1 "set 5 5".data none =
      .ok ⟨[], [.Parse ⟨.Parse, "5".data, "identifier".data, ⟨1, 5⟩⟩]⟩ ∧
    errorDisplay (.Parse ⟨.Parse, "5".data, "identifier".data, ⟨1, 5⟩⟩) =
      "unexpected 5, expecting identifier on line 1, column 5".data := by
  refine ⟨checkIdent_eq, ?_, by decide, by decide⟩
  intro T lineNum col rest w0 w1 h1 h2
  simp only [setCommand, h1, checkIdent_eq, h2]
  rfl

/-- C9 (witness): the identifier-rejection law applied to the word `5`
of `set 5 5`. -/
theorem set_identifier_validation_witness :
    setCommand (T := Unit) 1 5 "5 5".data =
      .err (.Parse ⟨.Parse, "5".data, "identifier".data, ⟨1, 5 + 0⟩⟩) :=
  set_identifier_validation.2.1 Unit 1 5 "5 5".data ⟨0, "5".data⟩ ⟨2, "5".data⟩
    (by decide) (by decide)

/-- C10: when an include line has extra words after the path,
`include_command` records the Parse error expecting `<end of line>` at
the extra text's position and still joins the path with the include
directory, opens the file, parses it and merges its commands and errors
— the trailing-content error does not suppress the include. -/
theorem include_with_trailing_words :
    ∀ (T : Type) (env : Env T) (sub : List Text → RRes (ParseResult T))
      (lineNum col : Nat) (rest : Text) (w ew : Word) (content : Text)
      (subr : ParseResult T),
      wordF rest = some w →
      w.index + w.word.length + 1 < rest.length →
      maybeWord (rest.drop (w.index + w.word.length + 1)) = some ew →
      env.fs (joinPath env.includePath w.word) = some content →
      sub (rustLines content) = .ok subr →
      includeCommand env sub lineNum col rest =
        .ok ⟨subr.commands,
             .Parse ⟨.Parse, rest.drop (w.index + w.word.length + 1), "<end of line>".data,
                     ⟨lineNum, col + (w.index + w.word.length + 1) + ew.index⟩⟩
               :: subr.errors⟩ := by
  intro T env sub lineNum col rest w ew content subr h1 h2 h3 h4 h5
  simp only [includeCommand, h1, h4, h5, checkEolErrs, checkEol, if_pos h2, h3]
  rfl

/-- C10 (witness): the trailing-words include law applied to
`include a.conf extra` in the `envFS` filesystem. -/
theorem include_with_trailing_words_witness :
    includeCommand envFS (fun _ => .ok ⟨[], []⟩) 1 9 "a.conf extra".data =
      .ok ⟨[],
           [.Parse ⟨.Parse, "extra".data, "<end of line>".data, ⟨1, 16⟩⟩]⟩ :=
  include_with_trailing_words Unit envFS (fun _ => .ok ⟨[], []⟩) 1 9
    "a.conf extra".data ⟨0, "a.conf".data⟩ ⟨0, "extra".data⟩ "set a = 1".data
    ⟨[], []⟩ (by decide) (by decide) (by decide) (by decide) (by decide)

end MgSettings
